import Mathlib

/-!
Verification of the core of a Binance Futures Testnet trading client
(`bot/client.py`, `bot/validators.py`, `bot/orders.py`, `cli.py`, `app.py`)
against its natural-language specification.

Python dictionaries preserve insertion order, so a parameter map is
embedded as an association list `List (String × String)`; Python dict
assignment (`d[k] = v`) updates the value in place when the key exists and
appends otherwise.  Numeric user inputs are embedded as Python float
values — exact rationals for decimal literals (their values are exactly
representable at the spec's "real number" reading) together with the
non-finite floats `inf`/`-inf`/`nan` and their Python comparison
semantics; the HMAC-SHA256 primitive and Python's float-to-string
rendering are external library calls and are taken as abstract function
parameters, universally quantified in theorems.
-/

deriving instance DecidableEq for Except

namespace TradingBot

/-- Python dict lookup `d.get(k)` on an insertion-ordered association list:
the first binding of the key, if any. -/
def dictGet {α : Type} (d : List (String × α)) (k : String) : Option α :=
  match d with
  | [] => none
  | (k', v) :: rest => if k' = k then some v else dictGet rest k

/-- Python dict assignment `d[k] = v`: overwrite in place when the key is
present (keeping its position), append at the end otherwise.  A dict has
at most one binding per key, so overwriting the first occurrence is the
general case. -/
def dictSet (d : List (String × String)) (k v : String) : List (String × String) :=
  match d with
  | [] => [(k, v)]
  | (k', v') :: rest => if k' = k then (k, v) :: rest else (k', v') :: dictSet rest k v

/-- Keys of a parameter map. -/
def dictKeys (d : List (String × String)) : List String :=
  d.map Prod.fst

/-- Python `str.upper()` (ASCII case mapping, the range these inputs
use). -/
def pyUpper (s : String) : String :=
  String.mk (s.data.map Char.toUpper)

/-- Python `str.lower()` (ASCII case mapping). -/
def pyLower (s : String) : String :=
  String.mk (s.data.map Char.toLower)

/-- Strip leading and trailing whitespace, as `float()` does before
parsing. -/
def trimChars (xs : List Char) : List Char :=
  ((xs.dropWhile Char.isWhitespace).reverse.dropWhile Char.isWhitespace).reverse

/-- UTF-8 encoding of a single character, as the list of its byte values. -/
def utf8Bytes (c : Char) : List Nat :=
  let n := c.toNat
  if n < 0x80 then [n]
  else if n < 0x800 then
    [0xC0 + n / 64, 0x80 + n % 64]
  else if n < 0x10000 then
    [0xE0 + n / 4096, 0x80 + (n / 64) % 64, 0x80 + n % 64]
  else
    [0xF0 + n / 262144, 0x80 + (n / 4096) % 64, 0x80 + (n / 64) % 64, 0x80 + n % 64]

/-- Uppercase hexadecimal digit for a value below 16, as in Python's
percent-encoding. -/
def hexDigitUpper (n : Nat) : Char :=
  if n < 10 then Char.ofNat (48 + n) else Char.ofNat (55 + n)

/-- Bytes left unescaped by `urllib.parse.quote_plus`: ASCII letters,
digits, and the characters `_`, `.`, `-`, `~`. -/
def isUrlSafeByte (b : Nat) : Bool :=
  (0x41 ≤ b && b ≤ 0x5A) || (0x61 ≤ b && b ≤ 0x7A) || (0x30 ≤ b && b ≤ 0x39) ||
    b = 0x2D || b = 0x2E || b = 0x5F || b = 0x7E

/-- Percent-encoding of one byte: kept verbatim when safe, space becomes
`+`, anything else becomes `%XX` with uppercase hex. -/
def quoteByte (b : Nat) : String :=
  if b = 0x20 then "+"
  else if isUrlSafeByte b then String.singleton (Char.ofNat b)
  else "%" ++ String.singleton (hexDigitUpper (b / 16)) ++ String.singleton (hexDigitUpper (b % 16))

/-- `urllib.parse.quote_plus` over the UTF-8 bytes of a string. -/
def quote_plus (s : String) : String :=
  String.join (s.data.map (fun c => String.join ((utf8Bytes c).map quoteByte)))

/-- `urllib.parse.urlencode`: `k1=v1&k2=v2&…` with `quote_plus` applied to
every key and value, in the map's insertion order. -/
def urlencode (d : List (String × String)) : String :=
  String.intercalate "&" (d.map (fun p => quote_plus p.1 ++ "=" ++ quote_plus p.2))

/-- `BinanceFuturesClient._sign` (bot/client.py): set
`params["timestamp"]` to the current time in milliseconds, compute the
HMAC-SHA256 hex digest of the URL-encoded parameter string keyed by the
API secret, and set `params["signature"]` to it.  The dict is mutated in
place and returned; `hmacHex secret msg` abstracts
`hmac.new(secret, msg, sha256).hexdigest()`. -/
def sign (hmacHex : String → String → String) (api_secret : String) (nowMs : Int)
    (params : List (String × String)) : List (String × String) :=
  let params := dictSet params "timestamp" (toString nowMs)
  let query_string := urlencode params
  let signature := hmacHex api_secret query_string
  dictSet params "signature" signature

/-- `BinanceFuturesClient.get` parameter pipeline (bot/client.py): a `none`
params defaults to the empty map; when `signed` is true the map is signed
in place.  The returned map is both the transmitted query map and — since
`_sign` mutates its argument — the caller's own dict after the call. -/
def clientGet (hmacHex : String → String → String) (api_secret : String) (nowMs : Int)
    (params : Option (List (String × String))) (signed : Bool) : List (String × String) :=
  let params := params.getD []
  if signed then sign hmacHex api_secret nowMs params else params

/-- `BinanceFuturesClient.post` parameter pipeline: identical handling of
`params` and `signed` (the body is form-encoded rather than a query
string, which does not affect the parameter map). -/
def clientPost (hmacHex : String → String → String) (api_secret : String) (nowMs : Int)
    (params : Option (List (String × String))) (signed : Bool) : List (String × String) :=
  let params := params.getD []
  if signed then sign hmacHex api_secret nowMs params else params

/-- `BinanceFuturesClient.delete` parameter pipeline: identical handling
of `params` and `signed`. -/
def clientDelete (hmacHex : String → String → String) (api_secret : String) (nowMs : Int)
    (params : Option (List (String × String))) (signed : Bool) : List (String × String) :=
  let params := params.getD []
  if signed then sign hmacHex api_secret nowMs params else params

/-! ### Python `float()`

`float()` accepts an optional sign followed by either a decimal literal —
a digit part with underscores between digits, an optional decimal point
and fraction, and an optional exponent — or one of the named
non-finite literals `inf`, `infinity`, `nan` (case-insensitive), with
surrounding whitespace stripped.  A parsed value is either an exact
rational (decimal literals have exact finite values, the spec-level
reading of "parses as a real number") or one of the non-finite floats,
whose Python comparison behavior — every comparison with NaN is false —
drives the validators below. -/

/-- Consume a run of decimal digits in which an underscore may stand
between two digits, returning the accumulated value, the digit count and
the unconsumed rest (stopping before an underscore not followed by a
digit, which then makes the whole literal unparseable). -/
def digitsAux : List Char → Nat → Nat → Nat × Nat × List Char
  | [], acc, cnt => (acc, cnt, [])
  | c :: rest, acc, cnt =>
    if c.isDigit then digitsAux rest (acc * 10 + (c.toNat - 48)) (cnt + 1)
    else if c = '_' then
      match rest with
      | d :: rest' =>
        if d.isDigit then digitsAux rest' (acc * 10 + (d.toNat - 48)) (cnt + 1)
        else (acc, cnt, c :: d :: rest')
      | [] => (acc, cnt, [c])
    else (acc, cnt, c :: rest)

/-- A digit group must open with a digit (an underscore may not lead). -/
def parseDigitGroup (xs : List Char) : Option (Nat × Nat × List Char) :=
  match xs with
  | c :: _ => if c.isDigit then some (digitsAux xs 0 0) else none
  | [] => none

/-- Mantissa: `digits [. [digits]]` or `. digits`.  Returns the integer
part value, the fraction digits value and the fraction digit count, plus
the unconsumed rest. -/
def parseMantissa (xs : List Char) : Option ((Nat × Nat × Nat) × List Char) :=
  match xs with
  | '.' :: r =>
    match parseDigitGroup r with
    | some (f, fc, rest) => some ((0, f, fc), rest)
    | none => none
  | _ =>
    match parseDigitGroup xs with
    | none => none
    | some (ip, _, rest) =>
      match rest with
      | '.' :: r =>
        match parseDigitGroup r with
        | some (f, fc, rest') => some ((ip, f, fc), rest')
        | none => some ((ip, 0, 0), r)
      | _ => some ((ip, 0, 0), rest)

/-- Optional exponent `e`/`E` with optional sign: returns whether the
exponent is negative and its magnitude, plus the unconsumed rest. -/
def parseExponent (xs : List Char) : Option ((Bool × Nat) × List Char) :=
  match xs with
  | c :: r =>
    if c = 'e' || c = 'E' then
      let signedRest : Bool × List Char :=
        match r with
        | '+' :: r2 => (false, r2)
        | '-' :: r2 => (true, r2)
        | r2 => (false, r2)
      match parseDigitGroup signedRest.2 with
      | some (e, _, rest) => some ((signedRest.1, e), rest)
      | none => none
    else some ((false, 0), c :: r)
  | [] => some ((false, 0), [])

/-- The digits of a successfully parsed decimal literal: sign, integer
part, fraction value and digit count, exponent sign and magnitude. -/
structure FloatRep where
  neg : Bool
  ip : Nat
  f : Nat
  fc : Nat
  eneg : Bool
  e : Nat
deriving DecidableEq

/-- The exact rational value of a parsed decimal literal. -/
def FloatRep.toRat (r : FloatRep) : ℚ :=
  let m : ℚ := (r.ip : ℚ) + (r.f : ℚ) / ((10 ^ r.fc : ℕ) : ℚ)
  let scaled : ℚ := if r.eneg then m / ((10 ^ r.e : ℕ) : ℚ) else m * ((10 ^ r.e : ℕ) : ℚ)
  if r.neg then -scaled else scaled

/-- The parsing stage of Python `float(s)` on finite decimal literals:
strip whitespace, optional sign, mantissa, optional exponent, and require
the input to be exhausted; `none` models the `ValueError` on unparseable
input. -/
def parsePyFloatRep (s : String) : Option FloatRep :=
  let stripped := trimChars s.data
  let signed : Bool × List Char :=
    match stripped with
    | '+' :: r => (false, r)
    | '-' :: r => (true, r)
    | r => (false, r)
  match parseMantissa signed.2 with
  | none => none
  | some (m, rest) =>
    match parseExponent rest with
    | none => none
    | some (ex, rest') =>
      if rest' = [] then some ⟨signed.1, m.1, m.2.1, m.2.2, ex.1, ex.2⟩ else none

/-- A Python float value as produced by `float()` on these inputs: an
exact finite value, a signed infinity, or NaN. -/
inductive PyFloat where
  | finite (q : ℚ)
  | inf (neg : Bool)
  | nan
deriving DecidableEq

/-- Whether the value is a finite number (the only values that denote
real numbers). -/
def PyFloat.isFinite : PyFloat → Bool
  | .finite _ => true
  | _ => false

/-- Python `x <= c` for a float value and a finite bound: NaN compares
false against everything, `-inf` is below and `+inf` above every finite
bound. -/
def PyFloat.le (x : PyFloat) (c : ℚ) : Bool :=
  match x with
  | .finite q => decide (q ≤ c)
  | .inf neg => neg
  | .nan => false

/-- Python `x > c` for a float value and a finite bound: NaN compares
false against everything. -/
def PyFloat.gt (x : PyFloat) (c : ℚ) : Bool :=
  match x with
  | .finite q => decide (c < q)
  | .inf neg => !neg
  | .nan => false

/-- The named non-finite literals accepted by `float()`: optional sign,
then `inf`, `infinity` or `nan`, case-insensitively (`nan` keeps no
sign). -/
def parsePyFloatSpecial (s : String) : Option PyFloat :=
  let stripped := trimChars s.data
  let signed : Bool × List Char :=
    match stripped with
    | '+' :: r => (false, r)
    | '-' :: r => (true, r)
    | r => (false, r)
  let low := signed.2.map Char.toLower
  if low = ['i', 'n', 'f'] ∨ low = ['i', 'n', 'f', 'i', 'n', 'i', 't', 'y'] then
    some (.inf signed.1)
  else if low = ['n', 'a', 'n'] then some .nan
  else none

/-- Python `float(s)`: a named non-finite literal or a decimal literal,
`none` modelling the `ValueError` on anything else. -/
def parsePyFloat (s : String) : Option PyFloat :=
  match parsePyFloatSpecial s with
  | some v => some v
  | none => (parsePyFloatRep s).map (fun r => .finite r.toRat)

/-! ### Validators (bot/validators.py, cli.py) -/

/-- A `click.BadParameter` failure: the offending parameter (its
`param_hint`) and the human-readable message. -/
structure ValidationError where
  param_hint : String
  message : String
deriving DecidableEq

/-- The parameter hint carried by a failed validation, if any. -/
def errParamHint {α : Type} : Except ValidationError α → Option String
  | .error e => some e.param_hint
  | .ok _ => none

/-- `validate_quantity` (bot/validators.py): parse as a float, then the
guards `qty <= 0` and `qty > 1_000_000`, with Python float comparison
semantics (both guards are false for NaN, which therefore passes). -/
def validate_quantity (quantity : String) : Except ValidationError PyFloat :=
  match parsePyFloat quantity with
  | none =>
    .error ⟨"--quantity", quantity ++ " is not a valid number. Quantity must be a positive decimal (e.g. 0.01)."⟩
  | some qty =>
    if qty.le 0 then
      .error ⟨"--quantity", "Quantity must be greater than 0."⟩
    else if qty.gt 1000000 then
      .error ⟨"--quantity", "Quantity exceeds the maximum allowed value of 1,000,000."⟩
    else .ok qty

/-- `validate_price` (bot/validators.py): for `MARKET`/`STOP_MARKET` the
price must be absent; every other (validated) type is treated as `LIMIT`,
for which the price is required, must parse, and passes the guard
`parsed_price <= 0` (false for NaN, which therefore passes). -/
def validate_price (price : Option String) (order_type : String) : Except ValidationError (Option PyFloat) :=
  if order_type = "MARKET" ∨ order_type = "STOP_MARKET" then
    match price with
    | some _ =>
      .error ⟨"--price", "Price must not be specified for " ++ order_type ++ " orders. Remove the --price flag."⟩
    | none => .ok none
  else
    match price with
    | none => .error ⟨"--price", "Price is required for LIMIT orders. Please provide --price <value>."⟩
    | some p =>
      match parsePyFloat p with
      | none => .error ⟨"--price", p ++ " is not a valid price. Must be a positive decimal number."⟩
      | some parsed_price =>
        if parsed_price.le 0 then
          .error ⟨"--price", "Price must be greater than 0."⟩
        else .ok (some parsed_price)

/-- `_validate_stop_price` (cli.py): only `STOP_MARKET`/`STOP_LIMIT` need
a stop price — required, parseable, and passing the guard `parsed <= 0`
(a non-positive parse raises `ValueError`, caught by the same handler as
a parse failure; the guard is false for NaN, which therefore passes); any
other type yields `None` regardless of the input. -/
def validate_stop_price (stop_price : Option String) (order_type : String) : Except ValidationError (Option PyFloat) :=
  if ¬ (order_type = "STOP_MARKET" ∨ order_type = "STOP_LIMIT") then .ok none
  else
    match stop_price with
    | none => .error ⟨"--stop-price", "--stop-price is required for " ++ order_type ++ " orders."⟩
    | some s =>
      match parsePyFloat s with
      | none => .error ⟨"--stop-price", s ++ " is not a valid stop price. Must be a positive number."⟩
      | some parsed =>
        if parsed.le 0 then
          .error ⟨"--stop-price", s ++ " is not a valid stop price. Must be a positive number."⟩
        else .ok (some parsed)

/-! ### Order dispatch (bot/orders.py) -/

/-- `OrderManager.place_order` parameter construction (bot/orders.py):
base set `{symbol, side, type, quantity-as-string}`, then the
type-dependent fields; a missing required price or stop price raises
`ValueError` before `client.post` is ever reached, so an `ok` value is
exactly the parameter map handed to the signed POST.  `fstr` abstracts
Python's `str()` on a float. -/
def place_order (fstr : ℚ → String) (symbol side order_type : String) (quantity : ℚ)
    (price : Option ℚ) (time_in_force : String) (stop_price : Option ℚ) :
    Except String (List (String × String)) :=
  let params : List (String × String) :=
    [("symbol", pyUpper symbol), ("side", pyUpper side),
     ("type", pyUpper order_type), ("quantity", fstr quantity)]
  if pyUpper order_type = "LIMIT" then
    match price with
    | none => .error "Price is required for LIMIT orders."
    | some p => .ok (params ++ [("price", fstr p), ("timeInForce", time_in_force)])
  else if pyUpper order_type = "STOP_MARKET" then
    match stop_price with
    | none => .error "stop_price is required for STOP_MARKET orders."
    | some sp => .ok (params ++ [("stopPrice", fstr sp)])
  else if pyUpper order_type = "STOP_LIMIT" then
    match price, stop_price with
    | none, _ => .error "Price (limit price) is required for STOP_LIMIT orders."
    | some _, none => .error "stop_price (trigger price) is required for STOP_LIMIT orders."
    | some p, some sp =>
      .ok (params ++ [("price", fstr p), ("stopPrice", fstr sp), ("timeInForce", time_in_force)])
  else .ok params

/-! ### Response handling (bot/client.py) -/

/-- JSON values as they occur in the exchange's response bodies (error
codes are integers, messages are strings, fields may be null). -/
inductive JsonVal where
  | jstr (s : String)
  | jint (n : Int)
  | jnull
deriving DecidableEq

/-- Python `str()` / f-string interpolation of such a value. -/
def pyStr : JsonVal → String
  | .jstr s => s
  | .jint n => toString n
  | .jnull => "None"

/-- An HTTP response as seen by `_handle_response`: status code, raw body
text, and the outcome of `response.json()` — `none` models the
`ValueError` raised on an unparseable body, `some obj` the parsed JSON
object. -/
structure HttpResponse where
  status_code : Nat
  text : String
  jsonBody : Option (List (String × JsonVal))

/-- The data carried by the `requests.HTTPError` raised on a non-200
status: the status code, the exchange error code (`body.get("code",
"N/A")`) and the message (`body.get("msg", response.text)`). -/
structure RemoteAPIError where
  status_code : Nat
  error_code : JsonVal
  error_msg : JsonVal
deriving DecidableEq

/-- The `f"Binance API Error {status}: {code} — {msg}"` message. -/
def apiErrorMessage (e : RemoteAPIError) : String :=
  "Binance API Error " ++ toString e.status_code ++ ": " ++ pyStr e.error_code
    ++ " — " ++ pyStr e.error_msg

/-- The two failure exits of `_handle_response`: the raised
`requests.HTTPError` on a non-200 status, or the uncaught `ValueError`
from `response.json()` on a 200 response whose body is not JSON. -/
inductive HandleError where
  | apiError (e : RemoteAPIError)
  | jsonDecodeError
deriving DecidableEq

/-- `BinanceFuturesClient._handle_response` (bot/client.py): status 200
returns the parsed JSON body; any other status raises with the error code
taken from the body (default `"N/A"`) and the message taken from the body
(default: the raw response text), the defaults also applying when the
body does not parse as JSON. -/
def handle_response (r : HttpResponse) : Except HandleError (List (String × JsonVal)) :=
  if r.status_code ≠ 200 then
    let codeMsg : JsonVal × JsonVal :=
      match r.jsonBody with
      | some error_body =>
        ((dictGet error_body "code").getD (.jstr "N/A"),
         (dictGet error_body "msg").getD (.jstr r.text))
      | none => (.jstr "N/A", .jstr r.text)
    .error (.apiError ⟨r.status_code, codeMsg.1, codeMsg.2⟩)
  else
    match r.jsonBody with
    | some body => .ok body
    | none => .error .jsonDecodeError

/-! ### High-level API helpers (bot/client.py) -/

/-- `BinanceFuturesClient.get_exchange_info` (bot/client.py): linearly
scan `data.get("symbols", [])` for the first entry whose `symbol` field
equals the uppercased query; raise `ValueError` (the spec's
`SymbolNotFoundError`) when none does.  The argument is the `symbols`
list of the exchange-info response. -/
def get_exchange_info (symbols : List (List (String × String))) (symbol : String) :
    Except String (List (String × String)) :=
  match symbols.find? (fun sym_info => decide (dictGet sym_info "symbol" = some (pyUpper symbol))) with
  | some sym_info => .ok sym_info
  | none =>
    .error ("Symbol " ++ symbol ++ " was not found on Binance Futures Testnet. "
      ++ "Check that the symbol is correct (e.g. BTCUSDT).")

/-- `float(asset.get("walletBalance", 0))` for one asset entry: `none`
models the uncaught `ValueError` on an unparseable balance string. -/
def walletBalance (asset : List (String × String)) : Option PyFloat :=
  match dictGet asset "walletBalance" with
  | none => some (.finite 0)
  | some s => parsePyFloat s

/-- `BinanceFuturesClient.get_account_balance` filter (bot/client.py):
keep, in order, exactly the asset entries whose wallet balance is
strictly positive; the whole call fails (`none`) if some balance string
does not parse.  The argument is the `assets` list of the account
response. -/
def get_account_balance : List (List (String × String)) → Option (List (List (String × String)))
  | [] => some []
  | asset :: rest =>
    match walletBalance asset with
    | none => none
    | some q =>
      match get_account_balance rest with
      | none => none
      | some kept => some (if q.gt 0 then asset :: kept else kept)

/-- The filter predicate of `get_account_balance`:
`float(asset.get("walletBalance", 0)) > 0` (false is never reached on an
unparseable balance, where the call as a whole fails instead). -/
def positiveBalance (asset : List (String × String)) : Bool :=
  match walletBalance asset with
  | some q => q.gt 0
  | none => false

/-! ### Order result formatting (bot/orders.py) -/

/-- An order response as consumed by `format_order_result`: the
`updateTime` field (epoch milliseconds, `none` when absent — `order.get`
then yields the default `0`) and the remaining display fields as
strings. -/
structure OrderResult where
  updateTime : Option Int
  fields : List (String × String)

/-- `order.get(k, "N/A")` on the display fields. -/
def orderField (o : OrderResult) (k : String) : String :=
  (dictGet o.fields k).getD "N/A"

/-- The `time_str` computed by `format_order_result`: convert
`order.get("updateTime", 0)` to a UTC datetime string; on failure
(`OSError`/`OverflowError`/`ValueError`, modelled by `none` from the
abstract converter `utcOfMillis`) fall back to `str()` of the raw
value. -/
def time_str_of (utcOfMillis : Int → Option String) (o : OrderResult) : String :=
  let update_time_ms := o.updateTime.getD 0
  match utcOfMillis update_time_ms with
  | some s => s
  | none => toString update_time_ms

/-- `OrderManager.format_order_result` (bot/orders.py): the multi-line
human-readable summary; total — every order value yields a string. -/
def format_order_result (utcOfMillis : Int → Option String) (o : OrderResult) : String :=
  let border := String.mk (List.replicate 60 '=')
  String.intercalate "\n"
    [border,
     "           ORDER RESULT",
     border,
     "  Order ID     : " ++ orderField o "orderId",
     "  Symbol       : " ++ orderField o "symbol",
     "  Side         : " ++ orderField o "side",
     "  Type         : " ++ orderField o "type",
     "  Status       : " ++ orderField o "status",
     "  Quantity     : " ++ orderField o "origQty",
     "  Executed Qty : " ++ orderField o "executedQty",
     "  Avg Price    : " ++ orderField o "avgPrice",
     "  Price        : " ++ orderField o "price",
     "  Time         : " ++ time_str_of utcOfMillis o,
     border]

/-! ### Association-list lemmas for the dict model -/

/-- Evaluating the parser: a concrete digit representation determines the
parsed finite value. -/
lemma parsePyFloat_eq_of_rep (s : String) (r : FloatRep)
    (hs : parsePyFloatSpecial s = none) (h : parsePyFloatRep s = some r) :
    parsePyFloat s = some (.finite r.toRat) := by
  simp [parsePyFloat, hs, h]

/-- Evaluating the parser: an unparseable literal yields `none`. -/
lemma parsePyFloat_eq_none_of_rep (s : String)
    (hs : parsePyFloatSpecial s = none) (h : parsePyFloatRep s = none) :
    parsePyFloat s = none := by
  simp [parsePyFloat, hs, h]

lemma dictSet_of_not_mem (d : List (String × String)) (k v : String)
    (h : k ∉ dictKeys d) : dictSet d k v = d ++ [(k, v)] := by
  induction d with
  | nil => rfl
  | cons p rest ih =>
    obtain ⟨k', v'⟩ := p
    simp only [dictKeys, List.map_cons, List.mem_cons, not_or] at h
    simp [dictSet, Ne.symm h.1, ih (by simpa [dictKeys] using h.2)]

lemma dictKeys_append (d₁ d₂ : List (String × String)) :
    dictKeys (d₁ ++ d₂) = dictKeys d₁ ++ dictKeys d₂ := by
  simp [dictKeys]

lemma dictGet_append {α : Type} (d₁ d₂ : List (String × α)) (k : String) :
    dictGet (d₁ ++ d₂) k =
      match dictGet d₁ k with
      | some v => some v
      | none => dictGet d₂ k := by
  induction d₁ with
  | nil => simp [dictGet]
  | cons p rest ih =>
    obtain ⟨k', v'⟩ := p
    by_cases h : k' = k
    · simp [dictGet, h]
    · simp [dictGet, h, ih]

lemma dictGet_dictSet_self (d : List (String × String)) (k v : String) :
    dictGet (dictSet d k v) k = some v := by
  induction d with
  | nil => simp [dictSet, dictGet]
  | cons p rest ih =>
    obtain ⟨k', v'⟩ := p
    by_cases h : k' = k
    · simp [dictSet, dictGet, h]
    · simp [dictSet, dictGet, h, ih]

lemma dictGet_dictSet_other (d : List (String × String)) (k v k' : String)
    (h : k' ≠ k) : dictGet (dictSet d k v) k' = dictGet d k' := by
  induction d with
  | nil => simp [dictSet, dictGet, Ne.symm h]
  | cons p rest ih =>
    obtain ⟨k₁, v₁⟩ := p
    by_cases h₁ : k₁ = k
    · subst h₁
      simp [dictSet, dictGet, Ne.symm h, h]
    · by_cases h₂ : k₁ = k'
      · subst h₂
        simp [dictSet, dictGet, h₁]
      · simp [dictSet, dictGet, h₁, h₂, ih]

/-- C1: for every parameter map sent with signed=true by the executor's
get/post/delete (such maps carry no `timestamp` or `signature` binding of
their own, which callers never supply), the transmitted map is the
original parameters extended with a `timestamp` key (current time in
milliseconds) followed by a `signature` key holding the HMAC-SHA256 hex
digest, keyed by the API secret, of the URL-encoded string of all
parameters including `timestamp` but excluding `signature`, in the
transmitted encoding order; unsigned requests pass parameters
unchanged. -/
theorem signed_request_params (hmacHex : String → String → String) (api_secret : String)
    (nowMs : Int) (params : List (String × String))
    (hts : "timestamp" ∉ dictKeys params) (hsig : "signature" ∉ dictKeys params) :
    (clientGet hmacHex api_secret nowMs (some params) true
        = params ++ [("timestamp", toString nowMs),
            ("signature", hmacHex api_secret
              (urlencode (params ++ [("timestamp", toString nowMs)])))]
      ∧ clientPost hmacHex api_secret nowMs (some params) true
        = params ++ [("timestamp", toString nowMs),
            ("signature", hmacHex api_secret
              (urlencode (params ++ [("timestamp", toString nowMs)])))]
      ∧ clientDelete hmacHex api_secret nowMs (some params) true
        = params ++ [("timestamp", toString nowMs),
            ("signature", hmacHex api_secret
              (urlencode (params ++ [("timestamp", toString nowMs)])))])
    ∧ (clientGet hmacHex api_secret nowMs (some params) false = params
      ∧ clientPost hmacHex api_secret nowMs (some params) false = params
      ∧ clientDelete hmacHex api_secret nowMs (some params) false = params) := by
  have hsig' : "signature" ∉ dictKeys (params ++ [("timestamp", toString nowMs)]) := by
    rw [dictKeys_append]
    simp only [List.mem_append, not_or]
    exact ⟨hsig, by simp [dictKeys]⟩
  have hsign : sign hmacHex api_secret nowMs params
      = (params ++ [("timestamp", toString nowMs)])
        ++ [("signature", hmacHex api_secret
              (urlencode (params ++ [("timestamp", toString nowMs)])))] := by
    unfold sign
    rw [dictSet_of_not_mem _ _ _ hts, dictSet_of_not_mem _ _ _ hsig']
  refine ⟨⟨?_, ?_, ?_⟩, rfl, rfl, rfl⟩ <;>
    simp [clientGet, clientPost, clientDelete, hsign]

/-- Witness for C1 at a concrete signed GET. -/
theorem signed_request_params_witness :
    ("timestamp" ∉ dictKeys [("symbol", "BTCUSDT")])
    ∧ ("signature" ∉ dictKeys [("symbol", "BTCUSDT")])
    ∧ clientGet (fun _ m => m) "secret" 1700000000000 (some [("symbol", "BTCUSDT")]) true
      = [("symbol", "BTCUSDT"), ("timestamp", "1700000000000"),
         ("signature", "symbol=BTCUSDT&timestamp=1700000000000")] := by
  refine ⟨by decide, by decide, ?_⟩
  have h := (signed_request_params (fun _ m => m) "secret" 1700000000000
      [("symbol", "BTCUSDT")] (by decide) (by decide)).1.1
  rw [h]
  decide

/-- C10: get/post/delete with signed=true mutate the caller-supplied dict
in place — `_sign` writes into its argument and returns the same object,
so the caller's own dict after the call is exactly the map modeled here:
it holds a `timestamp` key with the call-time clock value (overwriting
any caller-supplied `timestamp`), a `signature` key with the computed
digest, and an unchanged binding for every other key. -/
theorem sign_mutates_in_place (hmacHex : String → String → String) (api_secret : String)
    (nowMs : Int) (params : List (String × String)) :
    (dictGet (clientGet hmacHex api_secret nowMs (some params) true) "timestamp"
        = some (toString nowMs))
    ∧ (dictGet (clientGet hmacHex api_secret nowMs (some params) true) "signature"
        = some (hmacHex api_secret (urlencode (dictSet params "timestamp" (toString nowMs)))))
    ∧ (∀ k, k ≠ "timestamp" → k ≠ "signature" →
        dictGet (clientGet hmacHex api_secret nowMs (some params) true) k = dictGet params k)
    ∧ clientPost hmacHex api_secret nowMs (some params) true
        = clientGet hmacHex api_secret nowMs (some params) true
    ∧ clientDelete hmacHex api_secret nowMs (some params) true
        = clientGet hmacHex api_secret nowMs (some params) true := by
  have hafter : clientGet hmacHex api_secret nowMs (some params) true
      = dictSet (dictSet params "timestamp" (toString nowMs)) "signature"
          (hmacHex api_secret (urlencode (dictSet params "timestamp" (toString nowMs)))) := rfl
  refine ⟨?_, ?_, ?_, rfl, rfl⟩
  · rw [hafter, dictGet_dictSet_other _ _ _ _ (by decide), dictGet_dictSet_self]
  · rw [hafter, dictGet_dictSet_self]
  · intro k hk1 hk2
    rw [hafter, dictGet_dictSet_other _ _ _ _ hk2, dictGet_dictSet_other _ _ _ _ hk1]

/-- Witness for C10: a caller-supplied `timestamp` is overwritten with the
call-time value while the `symbol` binding survives untouched. -/
theorem sign_mutates_in_place_witness :
    dictGet (clientGet (fun _ m => m) "secret" 5
        (some [("symbol", "BTCUSDT"), ("timestamp", "1")]) true) "symbol" = some "BTCUSDT"
    ∧ dictGet (clientGet (fun _ m => m) "secret" 5
        (some [("symbol", "BTCUSDT"), ("timestamp", "1")]) true) "timestamp" = some "5" := by
  have h := sign_mutates_in_place (fun _ m => m) "secret" 5
      [("symbol", "BTCUSDT"), ("timestamp", "1")]
  constructor
  · rw [h.2.2.1 "symbol" (by decide) (by decide)]
    decide
  · rw [h.1]
    decide

/-- C2: status 200 returns the parsed JSON body; any non-200 status fails
with a `RemoteAPIError` carrying the status code, the exchange error code
from the body's `code` field (`"N/A"` when the body is unparseable or the
field absent) and the message from the body's `msg` field (falling back
to the raw response text); the −1121 / "Invalid symbol." example
surfaces both values in the error and its rendered message. -/
theorem handle_response_contract :
    (∀ (r : HttpResponse) (body : List (String × JsonVal)),
        r.status_code = 200 → r.jsonBody = some body → handle_response r = .ok body)
    ∧ (∀ (r : HttpResponse) (body : List (String × JsonVal)),
        r.status_code ≠ 200 → r.jsonBody = some body →
        handle_response r = .error (.apiError ⟨r.status_code,
          (dictGet body "code").getD (.jstr "N/A"),
          (dictGet body "msg").getD (.jstr r.text)⟩))
    ∧ (∀ r : HttpResponse, r.status_code ≠ 200 → r.jsonBody = none →
        handle_response r = .error (.apiError ⟨r.status_code, .jstr "N/A", .jstr r.text⟩))
    ∧ handle_response ⟨400, "raw", some [("code", .jint (-1121)), ("msg", .jstr "Invalid symbol.")]⟩
        = .error (.apiError ⟨400, .jint (-1121), .jstr "Invalid symbol."⟩)
    ∧ apiErrorMessage ⟨400, .jint (-1121), .jstr "Invalid symbol."⟩
        = "Binance API Error 400: -1121 — Invalid symbol." := by
  refine ⟨?_, ?_, ?_, by decide, by decide⟩
  · intro r body h200 hbody
    simp [handle_response, h200, hbody]
  · intro r body hne hbody
    simp [handle_response, hne, hbody]
  · intro r hne hbody
    simp [handle_response, hne, hbody]

/-- Witness for C2: the 200 branch and the unparseable-body branch at
concrete responses. -/
theorem handle_response_contract_witness :
    handle_response ⟨200, "body", some [("a", .jint 1)]⟩ = .ok [("a", .jint 1)]
    ∧ handle_response ⟨500, "oops", none⟩
        = .error (.apiError ⟨500, .jstr "N/A", .jstr "oops"⟩) :=
  ⟨handle_response_contract.1 _ _ rfl rfl,
   handle_response_contract.2.2.1 ⟨500, "oops", none⟩ (by decide) rfl⟩

/-- C3: `place_order` builds the base set {symbol, side, type,
quantity-as-string} and, by type, adds nothing for `MARKET`, price and
time-in-force for `LIMIT`, stop price for `STOP_MARKET`, and price, stop
price and time-in-force for `STOP_LIMIT`; a missing required price or
stop price is an error raised before the network call; the LIMIT example
yields exactly the claimed set before signing. -/
theorem place_order_params (fstr : ℚ → String) (symbol side : String) (quantity : ℚ)
    (price stop_price : Option ℚ) (time_in_force : String) :
    (place_order fstr symbol side "MARKET" quantity price time_in_force stop_price
        = .ok [("symbol", pyUpper symbol), ("side", pyUpper side),
               ("type", "MARKET"), ("quantity", fstr quantity)])
    ∧ (place_order fstr symbol side "LIMIT" quantity price time_in_force stop_price
        = match price with
          | none => .error "Price is required for LIMIT orders."
          | some p => .ok [("symbol", pyUpper symbol), ("side", pyUpper side),
               ("type", "LIMIT"), ("quantity", fstr quantity),
               ("price", fstr p), ("timeInForce", time_in_force)])
    ∧ (place_order fstr symbol side "STOP_MARKET" quantity price time_in_force stop_price
        = match stop_price with
          | none => .error "stop_price is required for STOP_MARKET orders."
          | some sp => .ok [("symbol", pyUpper symbol), ("side", pyUpper side),
               ("type", "STOP_MARKET"), ("quantity", fstr quantity),
               ("stopPrice", fstr sp)])
    ∧ (place_order fstr symbol side "STOP_LIMIT" quantity price time_in_force stop_price
        = match price, stop_price with
          | none, _ => .error "Price (limit price) is required for STOP_LIMIT orders."
          | some _, none => .error "stop_price (trigger price) is required for STOP_LIMIT orders."
          | some p, some sp => .ok [("symbol", pyUpper symbol), ("side", pyUpper side),
               ("type", "STOP_LIMIT"), ("quantity", fstr quantity),
               ("price", fstr p), ("stopPrice", fstr sp), ("timeInForce", time_in_force)])
    ∧ place_order fstr "BTCUSDT" "BUY" "LIMIT" (1 / 100) (some 50000) "GTC" none
        = .ok [("symbol", "BTCUSDT"), ("side", "BUY"), ("type", "LIMIT"),
               ("quantity", fstr (1 / 100)), ("price", fstr 50000), ("timeInForce", "GTC")] := by
  refine ⟨rfl, ?_, ?_, ?_, rfl⟩
  · cases price <;> rfl
  · cases stop_price <;> rfl
  · cases price <;> cases stop_price <;> rfl

/-- C4: the claim requires `validate_quantity` to fail whenever the input
does not parse as a real number in `(0, 1_000_000]`, but the code accepts
the input `nan`: `float("nan")` yields NaN, which is not a finite real,
and both guards `qty <= 0` and `qty > 1_000_000` are false for NaN, so
the NaN value is returned instead of a `ValidationError`. -/
theorem validate_quantity_nan_accepted :
    parsePyFloat "nan" = some PyFloat.nan
    ∧ PyFloat.nan.isFinite = false
    ∧ validate_quantity "nan" = .ok PyFloat.nan := by
  decide

/-- C5: the claim requires `validate_price` to fail for a `LIMIT` price
that does not parse as a real number or is not strictly positive, but the
code accepts the inputs `nan` and `inf`: the guard `parsed_price <= 0` is
false for NaN and for `+inf`, so the non-real values are returned instead
of a `ValidationError`. -/
theorem validate_price_nan_accepted :
    validate_price (some "nan") "LIMIT" = .ok (some PyFloat.nan)
    ∧ validate_price (some "inf") "LIMIT" = .ok (some (PyFloat.inf false))
    ∧ PyFloat.nan.isFinite = false
    ∧ (PyFloat.inf false).isFinite = false := by
  decide

/-- C6: the claim requires stop-price validation to fail for a
`STOP_MARKET`/`STOP_LIMIT` stop price that does not parse as a real
number or is not strictly positive, but the code accepts the input
`nan`: `parsed <= 0` is false for NaN, so no `ValueError` is raised and
NaN is returned instead of a `ValidationError`. -/
theorem validate_stop_price_nan_accepted :
    validate_stop_price (some "nan") "STOP_MARKET" = .ok (some PyFloat.nan)
    ∧ validate_stop_price (some "nan") "STOP_LIMIT" = .ok (some PyFloat.nan)
    ∧ PyFloat.nan.isFinite = false := by
  decide

/-- C7: `get_account_balance` keeps exactly the asset entries whose
wallet balance is strictly positive, in the order the exchange returned
them (stated on responses whose balance fields parse, the only ones the
code survives); the USDT/BNB example keeps only the BNB entry. -/
theorem get_account_balance_filter :
    (∀ assets, (∀ a ∈ assets, (walletBalance a).isSome) →
        get_account_balance assets = some (assets.filter positiveBalance))
    ∧ get_account_balance
        [[("asset", "USDT"), ("walletBalance", "0")], [("asset", "BNB"), ("walletBalance", "12.5")]]
      = some [[("asset", "BNB"), ("walletBalance", "12.5")]] := by
  constructor
  · intro assets h
    induction assets with
    | nil => rfl
    | cons a rest ih =>
      obtain ⟨q, hq⟩ := Option.isSome_iff_exists.1 (h a (List.mem_cons_self a rest))
      have hrest := ih (fun x hx => h x (List.mem_cons_of_mem a hx))
      cases hpos : q.gt 0 with
      | true => simp [get_account_balance, hq, hrest, List.filter_cons, positiveBalance, hpos]
      | false => simp [get_account_balance, hq, hrest, List.filter_cons, positiveBalance, hpos]
  · have h0 : parsePyFloat "0" = some (.finite 0) := by
      rw [parsePyFloat_eq_of_rep _ ⟨false, 0, 0, 0, false, 0⟩ (by decide) (by decide)]
      norm_num [FloatRep.toRat]
    have h125 : parsePyFloat "12.5" = some (.finite (25 / 2)) := by
      rw [parsePyFloat_eq_of_rep _ ⟨false, 12, 5, 1, false, 0⟩ (by decide) (by decide)]
      norm_num [FloatRep.toRat]
    have hU : walletBalance [("asset", "USDT"), ("walletBalance", "0")]
        = some (.finite 0) := by
      have hd : dictGet [("asset", "USDT"), ("walletBalance", "0")] "walletBalance"
          = some "0" := by decide
      simp [walletBalance, hd, h0]
    have hB : walletBalance [("asset", "BNB"), ("walletBalance", "12.5")]
        = some (.finite (25 / 2)) := by
      have hd : dictGet [("asset", "BNB"), ("walletBalance", "12.5")] "walletBalance"
          = some "12.5" := by decide
      simp [walletBalance, hd, h125]
    norm_num [get_account_balance, hU, hB, PyFloat.gt]

/-- Witness for C7: the filter characterization applied to the USDT/BNB
response, whose balances all parse. -/
theorem get_account_balance_filter_witness :
    (∀ a ∈ [[("asset", "USDT"), ("walletBalance", "0")],
            [("asset", "BNB"), ("walletBalance", "12.5")]], (walletBalance a).isSome)
    ∧ get_account_balance
        [[("asset", "USDT"), ("walletBalance", "0")], [("asset", "BNB"), ("walletBalance", "12.5")]]
      = some ([[("asset", "USDT"), ("walletBalance", "0")],
               [("asset", "BNB"), ("walletBalance", "12.5")]].filter positiveBalance) := by
  have h0 : parsePyFloat "0" = some (.finite 0) := by
    rw [parsePyFloat_eq_of_rep _ ⟨false, 0, 0, 0, false, 0⟩ (by decide) (by decide)]
    norm_num [FloatRep.toRat]
  have h125 : parsePyFloat "12.5" = some (.finite (25 / 2)) := by
    rw [parsePyFloat_eq_of_rep _ ⟨false, 12, 5, 1, false, 0⟩ (by decide) (by decide)]
    norm_num [FloatRep.toRat]
  have hU : walletBalance [("asset", "USDT"), ("walletBalance", "0")]
      = some (.finite 0) := by
    have hd : dictGet [("asset", "USDT"), ("walletBalance", "0")] "walletBalance"
        = some "0" := by decide
    simp [walletBalance, hd, h0]
  have hB : walletBalance [("asset", "BNB"), ("walletBalance", "12.5")]
      = some (.finite (25 / 2)) := by
    have hd : dictGet [("asset", "BNB"), ("walletBalance", "12.5")] "walletBalance"
        = some "12.5" := by decide
    simp [walletBalance, hd, h125]
  have hall : ∀ a ∈ [[("asset", "USDT"), ("walletBalance", "0")],
      [("asset", "BNB"), ("walletBalance", "12.5")]], (walletBalance a).isSome := by
    intro a ha
    simp only [List.mem_cons, List.not_mem_nil, or_false] at ha
    rcases ha with rfl | rfl
    · rw [hU]; rfl
    · rw [hB]; rfl
  exact ⟨hall, get_account_balance_filter.1 _ hall⟩

/-- C8 counterexample: the claim's case-insensitive entry matching fails
on the code — an exchange entry whose symbol is stored in lowercase
matches the query `BTCUSDT` case-insensitively, yet `get_exchange_info`
raises the symbol-not-found error. -/
theorem get_exchange_info_case_counterexample :
    dictGet [("symbol", "btcusdt")] "symbol" = some "btcusdt"
    ∧ pyLower "btcusdt" = pyLower "BTCUSDT"
    ∧ get_exchange_info [[("symbol", "btcusdt")]] "BTCUSDT"
      = .error ("Symbol BTCUSDT was not found on Binance Futures Testnet. "
          ++ "Check that the symbol is correct (e.g. BTCUSDT).") := by
  decide

/-- C8 amended: `get_exchange_info` uppercases the query and returns the
first entry whose `symbol` field equals the uppercased query exactly,
failing with the symbol-not-found error exactly when no entry's `symbol`
field equals it (so only the query, not the stored entries, is matched
case-insensitively). -/
theorem get_exchange_info_contract (symbols : List (List (String × String))) (symbol : String) :
    (∀ e, get_exchange_info symbols symbol = .ok e ↔
        symbols.find? (fun sym_info =>
          decide (dictGet sym_info "symbol" = some (pyUpper symbol))) = some e)
    ∧ (get_exchange_info symbols symbol
          = .error ("Symbol " ++ symbol ++ " was not found on Binance Futures Testnet. "
              ++ "Check that the symbol is correct (e.g. BTCUSDT).")
        ↔ ∀ e ∈ symbols, dictGet e "symbol" ≠ some (pyUpper symbol)) := by
  cases hf : symbols.find? (fun sym_info =>
      decide (dictGet sym_info "symbol" = some (pyUpper symbol))) with
  | some sym_info =>
    constructor
    · intro e
      simp [get_exchange_info, hf]
    · constructor
      · intro h
        exact absurd h (by simp [get_exchange_info, hf])
      · intro hall
        have hpred := List.find?_some hf
        simp only [decide_eq_true_eq] at hpred
        exact absurd hpred (hall sym_info (List.mem_of_find?_eq_some hf))
  | none =>
    constructor
    · intro e
      simp [get_exchange_info, hf]
    · constructor
      · intro _
        have h2 := List.find?_eq_none.1 hf
        simpa using h2
      · intro _
        simp [get_exchange_info, hf]

/-- Witness for C8's amended claim: a lowercase query is uppercased and
matched against an uppercase entry. -/
theorem get_exchange_info_contract_witness :
    get_exchange_info [[("symbol", "BTCUSDT")]] "btcusdt" = .ok [("symbol", "BTCUSDT")] := by
  rw [(get_exchange_info_contract [[("symbol", "BTCUSDT")]] "btcusdt").1 [("symbol", "BTCUSDT")]]
  decide

/-- C9: deriving the human-readable time string never fails the
surrounding call — whenever conversion of the update-time to a UTC
datetime string fails, the raw value's string is used instead and the
formatted result equals the one produced with an always-succeeding
converter returning that raw string. -/
theorem format_order_result_time_fallback (utcOfMillis : Int → Option String) (o : OrderResult)
    (h : utcOfMillis (o.updateTime.getD 0) = none) :
    time_str_of utcOfMillis o = toString (o.updateTime.getD 0)
    ∧ format_order_result utcOfMillis o
        = format_order_result (fun ms => some (toString ms)) o := by
  have ht : time_str_of utcOfMillis o = toString (o.updateTime.getD 0) := by
    simp [time_str_of, h]
  have ht2 : time_str_of (fun ms => some (toString ms)) o = toString (o.updateTime.getD 0) := by
    simp [time_str_of]
  exact ⟨ht, by simp [format_order_result, ht, ht2]⟩

/-- Witness for C9: an always-failing converter degrades to the raw
update-time string. -/
theorem format_order_result_time_fallback_witness :
    time_str_of (fun _ => (none : Option String)) ⟨some 99, []⟩
      = toString ((some (99 : Int)).getD 0) :=
  (format_order_result_time_fallback (fun _ => none) ⟨some 99, []⟩ rfl).1

end TradingBot
